import Mathlib

/-!
Verification development for the PowerPoint comparison tool
(src/razancompare.py).  The extraction-and-comparison engine is shallowly
embedded: pure Python functions become Lean functions, the external
collaborators (python-pptx parsing, hashlib.md5, PIL decoding/preview,
difflib.ndiff) are modelled as explicit parameters or contract-level
definitions, and the try/except boundaries become Option/Except values.
-/

namespace RazanCompare

/-- Whitespace characters Python str.strip removes: space, tab, LF, CR,
vertical tab and form feed. -/
def isPyWhitespace (c : Char) : Bool :=
  c = ' ' || c = '\t' || c = '\n' || c = '\r' ||
    c = Char.ofNat 11 || c = Char.ofNat 12

/-- Python str.strip: remove leading and trailing whitespace. -/
def pyStrip (s : String) : String :=
  String.mk (((s.data.dropWhile isPyWhitespace).reverse.dropWhile
    isPyWhitespace).reverse)

/-- Accumulator pass splitting a character stream at each LF. -/
def splitLinesAux : List Char → List Char → List String
  | [], acc => [String.mk acc.reverse]
  | c :: cs, acc =>
    if c = '\n' then String.mk acc.reverse :: splitLinesAux cs []
    else splitLinesAux cs (c :: acc)

/-- Python str.splitlines restricted to the LF separator, the only line
boundary the extraction pipeline produces (slide text is a join on a
single LF).  Python drops a final empty segment: "a\n".splitlines() is
["a"] and "".splitlines() is []. -/
def pySplitlines (s : String) : List String :=
  let parts := splitLinesAux s.data []
  if parts.getLast? = some "" then parts.dropLast else parts

/-- Record produced by process_image_blob for one extracted image blob. -/
structure ImageRec where
  hash : String
  size : Nat
  width : Nat
  height : Nat
  format : String
  thumbnail : Option String
  debug_info : String
  deriving DecidableEq, Repr

/-- Per-slide record produced by extract_content_from_pptx.  The Python
dict also stores image_count, always equal to images.length. -/
structure SlideRec where
  slide_number : Nat
  text_content : String
  images : List ImageRec
  deriving DecidableEq, Repr

/-- One line operation of the line diff, as rendered by the tool:
unchanged, removed (prefix "- ", present only in the first text) or added
(prefix "+ ", present only in the second text). -/
inductive DiffOp where
  | unchanged (line : String)
  | removed (line : String)
  | added (line : String)
  deriving DecidableEq, Repr

/-- Number of non-unchanged operations of a diff; used to pick the
cheaper of two candidate diffs. -/
def diffCost (ops : List DiffOp) : Nat :=
  ops.countP fun op =>
    match op with
    | DiffOp.unchanged _ => false
    | _ => true

/-- Modelled from the spec: difflib.ndiff is an external collaborator
(the repository calls it but does not define it); the spec asks for a
"Myers-style or equivalent" line diff, "a sequence of unchanged / added /
removed line operations".  This is a minimal-edit (longest common
subsequence) line diff.  The intraline "?" hint lines difflib can emit
are presentation annotations, not line operations, and are not part of
the operation sequence modelled here.  Recursion is driven by an explicit
fuel, always called with at least the sum of the two lengths, which the
recursion never exhausts. -/
def lcsDiffFuel : Nat → List String → List String → List DiffOp
  | _, [], bs => bs.map DiffOp.added
  | _, a :: as, [] => (a :: as).map DiffOp.removed
  | 0, _ :: _, _ :: _ => []
  | fuel + 1, a :: as, b :: bs =>
    if a = b then DiffOp.unchanged a :: lcsDiffFuel fuel as bs
    else
      let d1 := DiffOp.removed a :: lcsDiffFuel fuel as (b :: bs)
      let d2 := DiffOp.added b :: lcsDiffFuel fuel (a :: as) bs
      if diffCost d1 ≤ diffCost d2 then d1 else d2

/-- The minimal-edit line diff with sufficient fuel. -/
def lcsDiff (as bs : List String) : List DiffOp :=
  lcsDiffFuel (as.length + bs.length) as bs

/-- The diff of the two split texts, as compare_presentations obtains it
from difflib.ndiff. -/
def ndiff (a b : List String) : List DiffOp := lcsDiff a b

/-- Drop the operations marked added, keeping the line payloads of the
unchanged and removed operations: the first text, per difflib.restore. -/
def dropAdded (ops : List DiffOp) : List String :=
  ops.filterMap fun op =>
    match op with
    | DiffOp.unchanged l => some l
    | DiffOp.removed l => some l
    | DiffOp.added _ => none

/-- Drop the operations marked removed, keeping the line payloads of the
unchanged and added operations: the second text, per difflib.restore. -/
def dropRemoved (ops : List DiffOp) : List String :=
  ops.filterMap fun op =>
    match op with
    | DiffOp.unchanged l => some l
    | DiffOp.removed _ => none
    | DiffOp.added l => some l

@[simp]
lemma dropAdded_nil : dropAdded [] = [] := rfl

@[simp]
lemma dropAdded_cons_unchanged (l : String) (ops : List DiffOp) :
    dropAdded (DiffOp.unchanged l :: ops) = l :: dropAdded ops := rfl

@[simp]
lemma dropAdded_cons_removed (l : String) (ops : List DiffOp) :
    dropAdded (DiffOp.removed l :: ops) = l :: dropAdded ops := rfl

@[simp]
lemma dropAdded_cons_added (l : String) (ops : List DiffOp) :
    dropAdded (DiffOp.added l :: ops) = dropAdded ops := rfl

@[simp]
lemma dropRemoved_nil : dropRemoved [] = [] := rfl

@[simp]
lemma dropRemoved_cons_unchanged (l : String) (ops : List DiffOp) :
    dropRemoved (DiffOp.unchanged l :: ops) = l :: dropRemoved ops := rfl

@[simp]
lemma dropRemoved_cons_removed (l : String) (ops : List DiffOp) :
    dropRemoved (DiffOp.removed l :: ops) = dropRemoved ops := rfl

@[simp]
lemma dropRemoved_cons_added (l : String) (ops : List DiffOp) :
    dropRemoved (DiffOp.added l :: ops) = l :: dropRemoved ops := rfl

lemma dropAdded_map_added (bs : List String) : dropAdded (bs.map DiffOp.added) = [] := by
  induction bs with
  | nil => rfl
  | cons b bs ih => simp [ih]

lemma dropAdded_map_removed (as : List String) : dropAdded (as.map DiffOp.removed) = as := by
  induction as with
  | nil => rfl
  | cons a as ih => simp [ih]

lemma dropRemoved_map_added (bs : List String) : dropRemoved (bs.map DiffOp.added) = bs := by
  induction bs with
  | nil => rfl
  | cons b bs ih => simp [ih]

lemma dropRemoved_map_removed (as : List String) : dropRemoved (as.map DiffOp.removed) = [] := by
  induction as with
  | nil => rfl
  | cons a as ih => simp [ih]

lemma dropAdded_lcsDiffFuel :
    ∀ (fuel : Nat) (as bs : List String), as.length + bs.length ≤ fuel →
      dropAdded (lcsDiffFuel fuel as bs) = as := by
  intro fuel
  induction fuel with
  | zero =>
    intro as bs h
    cases as with
    | nil => simpa [lcsDiffFuel] using dropAdded_map_added bs
    | cons a as =>
      cases bs with
      | nil => simpa [lcsDiffFuel] using dropAdded_map_removed (a :: as)
      | cons b bs => simp at h
  | succ fuel ih =>
    intro as bs h
    cases as with
    | nil => simpa [lcsDiffFuel] using dropAdded_map_added bs
    | cons a as =>
      cases bs with
      | nil => simpa [lcsDiffFuel] using dropAdded_map_removed (a :: as)
      | cons b bs =>
        simp only [List.length_cons] at h
        simp only [lcsDiffFuel]
        by_cases hab : a = b
        · rw [if_pos hab, dropAdded_cons_unchanged, ih as bs (by omega)]
        · rw [if_neg hab]
          split
          · rw [dropAdded_cons_removed, ih as (b :: bs) (by simp; omega)]
          · rw [dropAdded_cons_added, ih (a :: as) bs (by simp; omega)]

lemma dropRemoved_lcsDiffFuel :
    ∀ (fuel : Nat) (as bs : List String), as.length + bs.length ≤ fuel →
      dropRemoved (lcsDiffFuel fuel as bs) = bs := by
  intro fuel
  induction fuel with
  | zero =>
    intro as bs h
    cases as with
    | nil => simpa [lcsDiffFuel] using dropRemoved_map_added bs
    | cons a as =>
      cases bs with
      | nil => simpa [lcsDiffFuel] using dropRemoved_map_removed (a :: as)
      | cons b bs => simp at h
  | succ fuel ih =>
    intro as bs h
    cases as with
    | nil => simpa [lcsDiffFuel] using dropRemoved_map_added bs
    | cons a as =>
      cases bs with
      | nil => simpa [lcsDiffFuel] using dropRemoved_map_removed (a :: as)
      | cons b bs =>
        simp only [List.length_cons] at h
        simp only [lcsDiffFuel]
        by_cases hab : a = b
        · rw [if_pos hab, dropRemoved_cons_unchanged, ih as bs (by omega)]
          rw [hab]
        · rw [if_neg hab]
          split
          · rw [dropRemoved_cons_removed, ih as (b :: bs) (by simp; omega)]
          · rw [dropRemoved_cons_added, ih (a :: as) bs (by simp; omega)]

lemma dropAdded_lcsDiff (as bs : List String) : dropAdded (lcsDiff as bs) = as :=
  dropAdded_lcsDiffFuel _ as bs (Nat.le_refl _)

lemma dropRemoved_lcsDiff (as bs : List String) : dropRemoved (lcsDiff as bs) = bs :=
  dropRemoved_lcsDiffFuel _ as bs (Nat.le_refl _)

/-- Abstract shape of the python-pptx shape tree the extractor consumes.
Getter access that would raise in Python (a missing image attribute, a
fill that is not a picture fill or whose picture is inaccessible) is
modelled as none.  Fields: shape_type (None when absent), the optional
shape text, the optional table as rows of cell texts, the image blob
reachable via shape.image.blob, the blob reachable via
shape.fill.fore_color.picture.blob when shape.fill.type is 2, and the
child shapes of a group. -/
inductive Shape where
  | node (shape_type : Option Nat) (text : Option String)
      (table : Option (List (List String)))
      (image_blob : Option (List Nat)) (fill_blob : Option (List Nat))
      (children : List Shape)

/-- External collaborators of the engine, passed explicitly: hashlib.md5
hexdigest, PIL decoding of (width, height, format), PIL thumbnail and
base64 data-URL encoding, and python-pptx parsing of container bytes into
slides of shapes (Except.error models the raised exception, carrying
str(e)). -/
structure PptxEnv where
  md5hex : List Nat → String
  decodeImage : List Nat → Option (Nat × Nat × String)
  encodePreview : List Nat → Option String
  parse : List Nat → Except String (List (List Shape))

/-- Diagnostics string for a shape type, as interpolated into
debug_info. -/
def shapeTypeStr : Option Nat → String
  | some n => toString n
  | none => "None"

/-- process_image_blob (src/razancompare.py lines 106 to 141): hash the
exact bytes, record the byte length, best-effort decode of dimensions and
format falling back to 0, 0, "Unknown", best-effort preview falling back
to None.  The outer try returns None only if hashing itself raises, which
cannot happen once the bytes are available, so the model always returns
some. -/
def process_image_blob (env : PptxEnv) (image_blob : List Nat)
    (debug_info : String) : Option ImageRec :=
  let image_hash := env.md5hex image_blob
  let dims :=
    match env.decodeImage image_blob with
    | some (w, h, fmt) => (w, h, fmt)
    | none => (0, 0, "Unknown")
  let thumbnail := env.encodePreview image_blob
  some
    { hash := image_hash
      size := image_blob.length
      width := dims.1
      height := dims.2.1
      format := dims.2.2
      thumbnail := thumbnail
      debug_info := debug_info }

/-- extract_images_from_shape (src/razancompare.py lines 54 to 104).
Method 1: direct picture blob when shape_type is 13; method 2: picture
fill blob, for any shape type; method 3: image attribute of a
placeholder, shape_type 14; method 4: recursion into the children of a
group, shape_type 6.  Failed attribute access is a none field and is
skipped; results are appended in method order. -/
def extract_images_from_shape (env : PptxEnv) : Shape → String → List ImageRec
  | Shape.node ty _ _ ib fb cs, parent_info =>
    let debug_info := parent_info ++ " -> Shape type: " ++ shapeTypeStr ty
    let m1 : List ImageRec :=
      if ty = some 13 then
        match ib with
        | some blob =>
          match process_image_blob env blob debug_info with
          | some img => [img]
          | none => []
        | none => []
      else []
    let m2 : List ImageRec :=
      match fb with
      | some blob =>
        match process_image_blob env blob (debug_info ++ " (from fill)") with
        | some img => [img]
        | none => []
      | none => []
    let m3 : List ImageRec :=
      if ty = some 14 then
        match ib with
        | some blob =>
          match process_image_blob env blob (debug_info ++ " (from placeholder)") with
          | some img => [img]
          | none => []
        | none => []
      else []
    let m4 : List ImageRec :=
      if ty = some 6 then
        (cs.attach.map fun c =>
          extract_images_from_shape env c.1 (debug_info ++ " (group child)")).flatten
      else []
    m1 ++ m2 ++ m3 ++ m4
decreasing_by
  simp only [Shape.node.sizeOf_spec]
  have := List.sizeOf_lt_of_mem c.2
  omega

/-- Modelled from the spec: the repository walk has no recursion-depth
cap, but the spec (sections 4.1 and 9) says implementers should impose a
recursion-depth cap, e.g. 64, and treat excess depth as silent truncation
rather than failure.  This is the walk with that cap, for comparison with
extract_images_from_shape; fuel 0 is the truncation point. -/
def cappedWalk (env : PptxEnv) : Nat → Shape → String → List ImageRec
  | 0, _, _ => []
  | depth + 1, Shape.node ty _ _ ib fb cs, parent_info =>
    let debug_info := parent_info ++ " -> Shape type: " ++ shapeTypeStr ty
    let m1 : List ImageRec :=
      if ty = some 13 then
        match ib with
        | some blob =>
          match process_image_blob env blob debug_info with
          | some img => [img]
          | none => []
        | none => []
      else []
    let m2 : List ImageRec :=
      match fb with
      | some blob =>
        match process_image_blob env blob (debug_info ++ " (from fill)") with
        | some img => [img]
        | none => []
      | none => []
    let m3 : List ImageRec :=
      if ty = some 14 then
        match ib with
        | some blob =>
          match process_image_blob env blob (debug_info ++ " (from placeholder)") with
          | some img => [img]
          | none => []
        | none => []
      else []
    let m4 : List ImageRec :=
      if ty = some 6 then
        (cs.attach.map fun c =>
          cappedWalk env depth c.1 (debug_info ++ " (group child)")).flatten
      else []
    m1 ++ m2 ++ m3 ++ m4

/-- Text lines one top-level shape contributes in
extract_content_from_pptx (lines 153 to 163): the stripped shape text
when non-blank, then every stripped non-blank table cell in row-major
order. -/
def shapeTextLines (s : Shape) : List String :=
  match s with
  | Shape.node _ t tbl _ _ _ =>
    (match t with
     | some txt => if pyStrip txt = "" then [] else [pyStrip txt]
     | none => []) ++
    (match tbl with
     | some rows =>
       rows.flatten.filterMap fun cell =>
         if pyStrip cell = "" then none else some (pyStrip cell)
     | none => [])

/-- Raw texts a slide exposes before stripping and blank filtering: each
shape text, then its table cells in row-major order. -/
def slideRawTexts (shapes : List Shape) : List String :=
  shapes.flatMap fun s =>
    match s with
    | Shape.node _ t tbl _ _ _ =>
      (match t with
       | some txt => [txt]
       | none => []) ++
      (match tbl with
       | some rows => rows.flatten
       | none => [])

/-- One slide of extract_content_from_pptx: the newline join of the
collected text lines, and the images of every top-level shape via
extract_images_from_shape, in encounter order. -/
def extract_slide (env : PptxEnv) (slide_number : Nat)
    (shapes : List Shape) : SlideRec :=
  { slide_number := slide_number
    text_content :=
      String.intercalate "\n" (shapes.flatMap shapeTextLines)
    images :=
      shapes.flatMap fun s =>
        extract_images_from_shape env s ("Slide " ++ toString slide_number) }

/-- The slide loop of extract_content_from_pptx, numbering slides from
the given 1-based counter. -/
def extractDeck (env : PptxEnv) : Nat → List (List Shape) → List SlideRec
  | _, [] => []
  | n, s :: ss => extract_slide env n s :: extractDeck env (n + 1) ss

/-- extract_content_from_pptx (lines 143 to 178): parse the container
bytes (Presentation raises on malformed input, modelled as Except.error)
and extract every slide, numbered from 1. -/
def extract_content_from_pptx (env : PptxEnv) (file_content : List Nat) :
    Except String (List SlideRec) :=
  match env.parse file_content with
  | Except.error e => Except.error e
  | Except.ok slides => Except.ok (extractDeck env 1 slides)

/-- Python dict insertion for the hash-to-record mapping built by the
comparison loop: a repeated key overwrites the value in place, a new key
is appended. -/
def hashInsert (m : List (String × ImageRec)) (h : String) (img : ImageRec) :
    List (String × ImageRec) :=
  if m.any fun p => p.1 = h then
    m.map fun p => if p.1 = h then (h, img) else p
  else m ++ [(h, img)]

/-- The dict comprehension building the hash-to-record mapping of a
slide, in image order. -/
def hashMapOf (imgs : List ImageRec) : List (String × ImageRec) :=
  imgs.foldl (fun m img => hashInsert m img.hash img) []

/-- Python membership test h in dict. -/
def hasKey (m : List (String × ImageRec)) (h : String) : Bool :=
  m.any fun p => p.1 = h

/-- Records of the first mapping whose hash is absent from the second
mapping, in insertion order: the loops at lines 244 to 253. -/
def onlyIn (xs ys : List ImageRec) : List ImageRec :=
  ((hashMapOf xs).filter fun p => !hasKey (hashMapOf ys) p.1).map Prod.snd

/-- The per-slide diff dict built by the comparison loop (lines 220 to
263).  Python sets the text_diff, ppt1_content, ppt2_content keys only
when the texts differ, and the missing-image keys only when the image
condition fires; consumers read absent keys with defaults, and when the
image condition is false both missing lists are empty and the count flag
false, so the unconditional fields below coincide with the dict. -/
structure SlideDiff where
  slide_number : Nat
  has_text_diff : Bool
  has_image_diff : Bool
  image_count1 : Nat
  image_count2 : Nat
  text_diff : List DiffOp
  ppt1_content : String
  ppt2_content : String
  image_count_different : Bool
  images_missing_in_ppt1 : List ImageRec
  images_missing_in_ppt2 : List ImageRec
  deriving DecidableEq, Repr

/-- The body of the comparison loop for one slide pair (lines 211 to
263). -/
def slideDiffOf (slide1 slide2 : SlideRec) : SlideDiff :=
  let content1 := slide1.text_content
  let content2 := slide2.text_content
  let has_text := content1 != content2
  let missing_in_ppt2 := onlyIn slide1.images slide2.images
  let missing_in_ppt1 := onlyIn slide2.images slide1.images
  let count_different := slide1.images.length != slide2.images.length
  { slide_number := slide1.slide_number
    has_text_diff := has_text
    has_image_diff :=
      !missing_in_ppt1.isEmpty || !missing_in_ppt2.isEmpty || count_different
    image_count1 := slide1.images.length
    image_count2 := slide2.images.length
    text_diff :=
      if has_text then ndiff (pySplitlines content1) (pySplitlines content2)
      else []
    ppt1_content := if has_text then content1 else ""
    ppt2_content := if has_text then content2 else ""
    image_count_different := count_different
    images_missing_in_ppt1 := missing_in_ppt1
    images_missing_in_ppt2 := missing_in_ppt2 }

/-- Whether the loop appends the slide dict to differences (line 266). -/
def slideHasDiff (d : SlideDiff) : Bool :=
  d.has_text_diff || d.has_image_diff

/-- One entry of the extra_slides tail (lines 271 to 288). -/
structure ExtraSlide where
  slide_number : Nat
  in_presentation : Nat
  text_content : String
  image_count : Nat
  deriving DecidableEq, Repr

/-- The result dict of compare_presentations.  Python returns a dict
whose key set depends on the branch; consumers read absent keys with
defaults (get with False or the empty list), which the branch-constant
fields below reproduce.  The counters identical_count, text_diff_count
and image_diff_count are the loop counters; the non-identical branch
reports them inside its summary strings. -/
structure CompareResult where
  identical : Bool
  summary : String
  detailed_summary : String
  differences : List SlideDiff
  extra_slides : List ExtraSlide
  slide_count_different : Bool
  slide_count_message : String
  identical_count : Nat
  text_diff_count : Nat
  image_diff_count : Nat
  error : Bool
  error_details : String
  deriving DecidableEq, Repr

/-- The comparison proper over the two extracted decks (lines 195 to
307): positional alignment over the first min(len, len) slides, the
extra-slide tail from the longer deck, and the identical verdict when no
per-slide diff was appended and the lengths agree. -/
def compare_extracted (slides1 slides2 : List SlideRec) : CompareResult :=
  let slide_count_diff := slides1.length != slides2.length
  let min_slides := min slides1.length slides2.length
  let slide_count_message :=
    if slide_count_diff then
      "Presentations have different number of slides: " ++
        toString slides1.length ++ " vs " ++ toString slides2.length ++
        ". Comparing the first " ++ toString min_slides ++ " slides."
    else ""
  let all_diffs := (slides1.zip slides2).map fun p => slideDiffOf p.1 p.2
  let differences := all_diffs.filter slideHasDiff
  let identical_count := all_diffs.countP fun d => !slideHasDiff d
  let text_diff_count := all_diffs.countP fun d => d.has_text_diff
  let image_diff_count := all_diffs.countP fun d => d.has_image_diff
  let extra_slides : List ExtraSlide :=
    if slides2.length < slides1.length then
      (slides1.drop min_slides).map fun s =>
        { slide_number := s.slide_number
          in_presentation := 1
          text_content := s.text_content
          image_count := s.images.length }
    else if slides1.length < slides2.length then
      (slides2.drop min_slides).map fun s =>
        { slide_number := s.slide_number
          in_presentation := 2
          text_content := s.text_content
          image_count := s.images.length }
    else []
  if differences.isEmpty && !slide_count_diff then
    { identical := true
      summary := "All " ++ toString slides1.length ++
        " slides have identical text and image content"
      detailed_summary := ""
      differences := []
      extra_slides := []
      slide_count_different := false
      slide_count_message := ""
      identical_count := identical_count
      text_diff_count := text_diff_count
      image_diff_count := image_diff_count
      error := false
      error_details := "" }
  else
    { identical := false
      summary := "Found differences in " ++ toString differences.length ++
        " out of " ++ toString min_slides ++ " compared slides (" ++
        toString identical_count ++ " slides identical)"
      detailed_summary := "Text differences: " ++ toString text_diff_count ++
        " slides, Image differences: " ++ toString image_diff_count ++ " slides"
      differences := differences
      extra_slides := extra_slides
      slide_count_different := slide_count_diff
      slide_count_message :=
        if slide_count_diff then slide_count_message else ""
      identical_count := identical_count
      text_diff_count := text_diff_count
      image_diff_count := image_diff_count
      error := false
      error_details := "" }

/-- The except branch of compare_presentations (lines 309 to 318): the
diagnostic message prefixes str(e) and the trace is
traceback.format_exc(), modelled as its fixed header followed by the
message. -/
def errorResult (msg : String) : CompareResult :=
  { identical := false
    summary := "Error comparing presentations: " ++ msg
    detailed_summary := ""
    differences := []
    extra_slides := []
    slide_count_different := false
    slide_count_message := ""
    identical_count := 0
    text_diff_count := 0
    image_diff_count := 0
    error := true
    error_details := "Traceback (most recent call last):\n" ++ msg }

/-- compare_presentations (lines 189 to 318): extract both decks inside
the terminal try, turning the first raised exception into the error
result; otherwise compare the extracted decks. -/
def compare_presentations (env : PptxEnv) (file1_content file2_content : List Nat) :
    CompareResult :=
  match extract_content_from_pptx env file1_content with
  | Except.error e => errorResult e
  | Except.ok slides1 =>
    match extract_content_from_pptx env file2_content with
    | Except.error e => errorResult e
    | Except.ok slides2 => compare_extracted slides1 slides2

/-- A deck whose slide numbers are the 1-based positions, as
extract_content_from_pptx produces them. -/
def Numbered (d : List SlideRec) : Prop :=
  ∀ (i : Nat) (h : i < d.length), (d.get ⟨i, h⟩).slide_number = i + 1

instance (d : List SlideRec) : Decidable (Numbered d) :=
  Nat.decidableBallLT d.length fun i h => (d.get ⟨i, h⟩).slide_number = i + 1

/-- Nested groups with the given shape at the bottom, used to probe the
recursion depth of the walk. -/
def nestGroups : Nat → Shape → Shape
  | 0, s => s
  | d + 1, s => Shape.node (some 6) none none none none [nestGroups d s]

/-- A bare picture shape carrying the given blob. -/
def picShape (blob : List Nat) : Shape :=
  Shape.node (some 13) none none (some blob) none []

/-- A concrete instantiation of the external collaborators: a toy digest,
a decoder and preview encoder that always fail, and a parser that always
raises as on malformed bytes. -/
def env0 : PptxEnv :=
  { md5hex := fun bytes => "h" ++ toString bytes.length
    decodeImage := fun _ => none
    encodePreview := fun _ => none
    parse := fun _ => Except.error "Package not found" }

/-! Field lemmas: the branch structure of compare_extracted collapses,
because in the identical branch the computed differences list is empty,
the length flag is false and the extra tail is empty. -/

lemma zip_self {α : Type} (l : List α) : l.zip l = l.map fun a => (a, a) := by
  induction l with
  | nil => rfl
  | cons a l ih => simp [List.zip_cons_cons, ih]

lemma compare_differences_eq (slides1 slides2 : List SlideRec) :
    (compare_extracted slides1 slides2).differences =
      ((slides1.zip slides2).map fun p => slideDiffOf p.1 p.2).filter slideHasDiff := by
  simp only [compare_extracted, apply_ite CompareResult.differences]
  split
  · next h =>
    simp only [Bool.and_eq_true, List.isEmpty_iff] at h
    exact h.1.symm
  · rfl

lemma compare_identical_count_eq (slides1 slides2 : List SlideRec) :
    (compare_extracted slides1 slides2).identical_count =
      ((slides1.zip slides2).map fun p => slideDiffOf p.1 p.2).countP
        fun d => !slideHasDiff d := by
  simp only [compare_extracted, apply_ite CompareResult.identical_count]
  split <;> rfl

lemma compare_slide_count_different_eq (slides1 slides2 : List SlideRec) :
    (compare_extracted slides1 slides2).slide_count_different =
      (slides1.length != slides2.length) := by
  simp only [compare_extracted, apply_ite CompareResult.slide_count_different]
  split
  · next h =>
    simp only [Bool.and_eq_true, Bool.not_eq_true'] at h
    exact h.2.symm
  · rfl

lemma compare_identical_eq (slides1 slides2 : List SlideRec) :
    (compare_extracted slides1 slides2).identical =
      ((((slides1.zip slides2).map fun p => slideDiffOf p.1 p.2).filter
          slideHasDiff).isEmpty && !(slides1.length != slides2.length)) := by
  simp only [compare_extracted, apply_ite CompareResult.identical]
  split
  · next h => exact h.symm
  · next h =>
    simp only [Bool.not_eq_true] at h
    exact h.symm

lemma compare_extra_slides_eq (slides1 slides2 : List SlideRec) :
    (compare_extracted slides1 slides2).extra_slides =
      (if slides2.length < slides1.length then
        (slides1.drop (min slides1.length slides2.length)).map fun s =>
          { slide_number := s.slide_number
            in_presentation := 1
            text_content := s.text_content
            image_count := s.images.length }
      else if slides1.length < slides2.length then
        (slides2.drop (min slides1.length slides2.length)).map fun s =>
          { slide_number := s.slide_number
            in_presentation := 2
            text_content := s.text_content
            image_count := s.images.length }
      else ([] : List ExtraSlide)) := by
  simp only [compare_extracted, apply_ite CompareResult.extra_slides]
  split
  · next h =>
    simp only [Bool.and_eq_true, Bool.not_eq_true', bne_eq_false_iff_eq] at h
    rw [if_neg (by omega), if_neg (by omega)]
  · rfl

/-! Lemmas about the per-slide diff of a slide against itself. -/

lemma hasKey_of_mem {m : List (String × ImageRec)} {p : String × ImageRec}
    (hp : p ∈ m) : hasKey m p.1 = true := by
  simp only [hasKey, List.any_eq_true]
  exact ⟨p, hp, by simp⟩

lemma onlyIn_self (xs : List ImageRec) : onlyIn xs xs = [] := by
  unfold onlyIn
  rw [List.filter_eq_nil_iff.mpr, List.map_nil]
  intro p hp
  simp [hasKey_of_mem hp]

lemma slideHasDiff_self (s : SlideRec) : slideHasDiff (slideDiffOf s s) = false := by
  simp [slideHasDiff, slideDiffOf, onlyIn_self]

/-- C1: reflexivity of comparison.  For every deck A of extracted slide
records, compare_extracted A A returns a result with identical true, an
empty differences sequence, and an identical-slide count equal to the
length of A. -/
theorem compare_self_reflexive (A : List SlideRec) :
    (compare_extracted A A).identical = true ∧
    (compare_extracted A A).differences = [] ∧
    (compare_extracted A A).identical_count = A.length := by
  have hmap : ((A.zip A).map fun p => slideDiffOf p.1 p.2) =
      A.map fun s => slideDiffOf s s := by
    rw [zip_self, List.map_map]
    rfl
  have hall : ∀ d ∈ A.map fun s => slideDiffOf s s, (!slideHasDiff d) = true := by
    intro d hd
    obtain ⟨s, _, rfl⟩ := List.mem_map.mp hd
    simp [slideHasDiff_self]
  have hfil : (A.map fun s => slideDiffOf s s).filter slideHasDiff = [] := by
    refine List.filter_eq_nil_iff.mpr ?_
    intro d hd
    simpa using hall d hd
  refine ⟨?_, ?_, ?_⟩
  · rw [compare_identical_eq, hmap, hfil]
    simp
  · rw [compare_differences_eq, hmap, hfil]
  · rw [compare_identical_count_eq, hmap, List.countP_eq_length.mpr hall,
      List.length_map]

/-- C2: the identical verdict holds exactly when no per-slide diff entry
was produced for the compared positions and the deck lengths agree; in
particular two empty decks compare as identical. -/
theorem compare_identical_iff :
    (∀ A B : List SlideRec,
      (compare_extracted A B).identical = true ↔
        ((compare_extracted A B).differences = [] ∧ A.length = B.length)) ∧
    (compare_extracted [] []).identical = true := by
  constructor
  · intro A B
    rw [compare_identical_eq, compare_differences_eq]
    simp [List.isEmpty_iff]
  · rfl

/-- C6: the image-hash symmetric difference is commutative in structure:
the records reported as only in the first deck when comparing (X, Y) are
exactly the records reported as only in the second deck when comparing
(Y, X). -/
theorem images_only_commutes (X Y : SlideRec) :
    (slideDiffOf X Y).images_missing_in_ppt2 =
      (slideDiffOf Y X).images_missing_in_ppt1 := rfl

/-- C5: whenever the image counts of an aligned slide pair differ, the
image-count-mismatch flag is set and the per-slide diff entry is in the
differences of the result, without any assumption on the hash-set
symmetric differences. -/
theorem image_count_mismatch_recorded (A B : List SlideRec) (i : Nat)
    (h1 : i < A.length) (h2 : i < B.length)
    (hne : (A.get ⟨i, h1⟩).images.length ≠ (B.get ⟨i, h2⟩).images.length) :
    (slideDiffOf (A.get ⟨i, h1⟩) (B.get ⟨i, h2⟩)).image_count_different = true ∧
    slideDiffOf (A.get ⟨i, h1⟩) (B.get ⟨i, h2⟩) ∈
      (compare_extracted A B).differences := by
  have hne2 : ¬A[i].images.length = B[i].images.length := by
    simpa using hne
  refine ⟨by simp [slideDiffOf, hne2], ?_⟩
  rw [compare_differences_eq]
  refine List.mem_filter.mpr ⟨?_, ?_⟩
  · refine List.mem_map.mpr ⟨(A.get ⟨i, h1⟩, B.get ⟨i, h2⟩), ?_, rfl⟩
    have hz : i < (A.zip B).length := by
      rw [List.length_zip]
      omega
    have hget : (A.zip B).get ⟨i, hz⟩ = (A.get ⟨i, h1⟩, B.get ⟨i, h2⟩) := by
      simp [List.getElem_zip]
    rw [← hget]
    exact List.get_mem _ _ _
  · simp only [slideHasDiff, slideDiffOf, Bool.or_eq_true]
    refine Or.inr (Or.inr ?_)
    simpa using hne2

/-- Witness for C5: a one-slide pair where the first slide has one image
of hash h1 and the second has two images of hashes h1 and h2; the counts
differ, the flag is set and the entry is produced. -/
theorem image_count_mismatch_recorded_witness :
    (SlideRec.mk 1 "t" [ImageRec.mk "h1" 3 0 0 "Unknown" none ""]).images.length ≠
      (SlideRec.mk 1 "t"
        [ImageRec.mk "h1" 3 0 0 "Unknown" none "",
         ImageRec.mk "h2" 4 0 0 "Unknown" none ""]).images.length ∧
    ((slideDiffOf
        (SlideRec.mk 1 "t" [ImageRec.mk "h1" 3 0 0 "Unknown" none ""])
        (SlideRec.mk 1 "t"
          [ImageRec.mk "h1" 3 0 0 "Unknown" none "",
           ImageRec.mk "h2" 4 0 0 "Unknown" none ""])).image_count_different = true ∧
      slideDiffOf
        (SlideRec.mk 1 "t" [ImageRec.mk "h1" 3 0 0 "Unknown" none ""])
        (SlideRec.mk 1 "t"
          [ImageRec.mk "h1" 3 0 0 "Unknown" none "",
           ImageRec.mk "h2" 4 0 0 "Unknown" none ""]) ∈
        (compare_extracted
          [SlideRec.mk 1 "t" [ImageRec.mk "h1" 3 0 0 "Unknown" none ""]]
          [SlideRec.mk 1 "t"
            [ImageRec.mk "h1" 3 0 0 "Unknown" none "",
             ImageRec.mk "h2" 4 0 0 "Unknown" none ""]]).differences) :=
  ⟨by decide,
    image_count_mismatch_recorded
      [SlideRec.mk 1 "t" [ImageRec.mk "h1" 3 0 0 "Unknown" none ""]]
      [SlideRec.mk 1 "t"
        [ImageRec.mk "h1" 3 0 0 "Unknown" none "",
         ImageRec.mk "h2" 4 0 0 "Unknown" none ""]]
      0 (by decide) (by decide) (by decide)⟩

/-- C3: when the deck lengths differ, the result records the mismatch and
the extra-slide tail has exactly the absolute length difference of
entries, every entry owned by the longer deck (in_presentation 1 when the
first deck is longer, 2 when the second is) and carrying the 1-based
indices from min+1 up to max, provided the decks are numbered by position
as extraction produces them.  The tail is built from the longer deck
alone, independently of the per-slide diffs. -/
theorem deck_length_mismatch_spec (A B : List SlideRec)
    (hA : Numbered A) (hB : Numbered B) (hlen : A.length ≠ B.length) :
    (compare_extracted A B).slide_count_different = true ∧
    (compare_extracted A B).extra_slides.length =
      max A.length B.length - min A.length B.length ∧
    (∀ j : Nat, j < (compare_extracted A B).extra_slides.length →
      ((compare_extracted A B).extra_slides.getD j
          (ExtraSlide.mk 0 0 "" 0)).in_presentation =
        (if B.length < A.length then 1 else 2) ∧
      ((compare_extracted A B).extra_slides.getD j
          (ExtraSlide.mk 0 0 "" 0)).slide_number =
        min A.length B.length + j + 1) := by
  refine ⟨by rw [compare_slide_count_different_eq]; simp [hlen], ?_, ?_⟩
  · rw [compare_extra_slides_eq]
    rcases Nat.lt_or_ge B.length A.length with hba | hba
    · rw [if_pos hba, List.length_map, List.length_drop]
      omega
    · have hab : A.length < B.length := by omega
      rw [if_neg (by omega), if_pos hab, List.length_map, List.length_drop]
      omega
  · simp only [compare_extra_slides_eq]
    rcases Nat.lt_or_ge B.length A.length with hba | hba
    · simp only [if_pos hba]
      intro j hj2
      rw [List.length_map, List.length_drop] at hj2
      have hj3 : j < ((A.drop (min A.length B.length)).map fun s =>
          ExtraSlide.mk s.slide_number 1 s.text_content s.images.length).length := by
        rw [List.length_map, List.length_drop]
        omega
      have hidx : min A.length B.length + j < A.length := by omega
      rw [List.getD_eq_getElem _ _ hj3]
      simp only [List.getElem_map, List.getElem_drop]
      exact ⟨by trivial, by simpa using hA (min A.length B.length + j) hidx⟩
    · have hab : A.length < B.length := by omega
      simp only [if_neg (by omega : ¬B.length < A.length), if_pos hab]
      intro j hj2
      rw [List.length_map, List.length_drop] at hj2
      have hj3 : j < ((B.drop (min A.length B.length)).map fun s =>
          ExtraSlide.mk s.slide_number 2 s.text_content s.images.length).length := by
        rw [List.length_map, List.length_drop]
        omega
      have hidx : min A.length B.length + j < B.length := by omega
      rw [List.getD_eq_getElem _ _ hj3]
      simp only [List.getElem_map, List.getElem_drop]
      exact ⟨by trivial, by simpa using hB (min A.length B.length + j) hidx⟩

/-- Witness for C3: a one-slide deck against a two-slide deck; the
mismatch is recorded, the tail has one entry owned by deck 2 with slide
index 2. -/
theorem deck_length_mismatch_spec_witness :
    Numbered [SlideRec.mk 1 "a" []] ∧
    Numbered [SlideRec.mk 1 "a" [], SlideRec.mk 2 "b" []] ∧
    ([SlideRec.mk 1 "a" []] : List SlideRec).length ≠
      ([SlideRec.mk 1 "a" [], SlideRec.mk 2 "b" []] : List SlideRec).length ∧
    ((compare_extracted [SlideRec.mk 1 "a" []]
        [SlideRec.mk 1 "a" [], SlideRec.mk 2 "b" []]).slide_count_different = true ∧
      (compare_extracted [SlideRec.mk 1 "a" []]
        [SlideRec.mk 1 "a" [], SlideRec.mk 2 "b" []]).extra_slides.length =
        max ([SlideRec.mk 1 "a" []] : List SlideRec).length
            ([SlideRec.mk 1 "a" [], SlideRec.mk 2 "b" []] : List SlideRec).length -
          min ([SlideRec.mk 1 "a" []] : List SlideRec).length
            ([SlideRec.mk 1 "a" [], SlideRec.mk 2 "b" []] : List SlideRec).length ∧
      (∀ j : Nat, j < (compare_extracted [SlideRec.mk 1 "a" []]
          [SlideRec.mk 1 "a" [], SlideRec.mk 2 "b" []]).extra_slides.length →
        ((compare_extracted [SlideRec.mk 1 "a" []]
            [SlideRec.mk 1 "a" [], SlideRec.mk 2 "b" []]).extra_slides.getD j
          (ExtraSlide.mk 0 0 "" 0)).in_presentation =
          (if ([SlideRec.mk 1 "a" [], SlideRec.mk 2 "b" []] : List SlideRec).length <
              ([SlideRec.mk 1 "a" []] : List SlideRec).length then 1 else 2) ∧
        ((compare_extracted [SlideRec.mk 1 "a" []]
            [SlideRec.mk 1 "a" [], SlideRec.mk 2 "b" []]).extra_slides.getD j
          (ExtraSlide.mk 0 0 "" 0)).slide_number =
          min ([SlideRec.mk 1 "a" []] : List SlideRec).length
              ([SlideRec.mk 1 "a" [], SlideRec.mk 2 "b" []] : List SlideRec).length +
            j + 1)) :=
  ⟨by decide, by decide, by decide,
    deck_length_mismatch_spec [SlideRec.mk 1 "a" []]
      [SlideRec.mk 1 "a" [], SlideRec.mk 2 "b" []]
      (by decide) (by decide) (by decide)⟩

/-- C4: for every per-slide diff entry that carries a text diff, removing
the operations marked added reconstitutes exactly the lines of the first
text, and removing the operations marked removed reconstitutes exactly
the lines of the second text. -/
theorem text_diff_restores (A B : List SlideRec) (d : SlideDiff)
    (hd : d ∈ (compare_extracted A B).differences)
    (ht : d.has_text_diff = true) :
    dropAdded d.text_diff = pySplitlines d.ppt1_content ∧
    dropRemoved d.text_diff = pySplitlines d.ppt2_content := by
  rw [compare_differences_eq] at hd
  obtain ⟨p, hp, rfl⟩ := List.mem_map.mp (List.mem_filter.mp hd).1
  have hb : (p.1.text_content != p.2.text_content) = true := by
    simpa [slideDiffOf] using ht
  constructor
  · show dropAdded (slideDiffOf p.1 p.2).text_diff =
      pySplitlines (slideDiffOf p.1 p.2).ppt1_content
    simp only [slideDiffOf, if_pos hb]
    exact dropAdded_lcsDiff _ _
  · show dropRemoved (slideDiffOf p.1 p.2).text_diff =
      pySplitlines (slideDiffOf p.1 p.2).ppt2_content
    simp only [slideDiffOf, if_pos hb]
    exact dropRemoved_lcsDiff _ _

/-- Witness for C4: the decks with texts "Hello" and "Hello World"
produce one diff entry whose operation sequence restores both texts. -/
theorem text_diff_restores_witness :
    slideDiffOf (SlideRec.mk 1 "Hello" []) (SlideRec.mk 1 "Hello World" []) ∈
      (compare_extracted [SlideRec.mk 1 "Hello" []]
        [SlideRec.mk 1 "Hello World" []]).differences ∧
    (slideDiffOf (SlideRec.mk 1 "Hello" [])
      (SlideRec.mk 1 "Hello World" [])).has_text_diff = true ∧
    (dropAdded (slideDiffOf (SlideRec.mk 1 "Hello" [])
        (SlideRec.mk 1 "Hello World" [])).text_diff =
      pySplitlines (slideDiffOf (SlideRec.mk 1 "Hello" [])
        (SlideRec.mk 1 "Hello World" [])).ppt1_content ∧
    dropRemoved (slideDiffOf (SlideRec.mk 1 "Hello" [])
        (SlideRec.mk 1 "Hello World" [])).text_diff =
      pySplitlines (slideDiffOf (SlideRec.mk 1 "Hello" [])
        (SlideRec.mk 1 "Hello World" [])).ppt2_content) :=
  ⟨by decide, by decide,
    text_diff_restores [SlideRec.mk 1 "Hello" []] [SlideRec.mk 1 "Hello World" []]
      (slideDiffOf (SlideRec.mk 1 "Hello" []) (SlideRec.mk 1 "Hello World" []))
      (by decide) (by decide)⟩

lemma append_ne_empty_of_left_ne (s t : String) (hs : s.length ≠ 0) :
    s ++ t ≠ "" := by
  intro h
  have hlen := congrArg String.length h
  rw [String.length_append] at hlen
  have h0 : String.length "" = 0 := rfl
  omega

/-- C7: the top-level comparison is the terminal error boundary: it is a
total function, and whenever extraction of either input fails the
returned result has identical false, the error flag set, a non-empty
diagnostic message and a non-empty trace. -/
theorem compare_error_boundary (env : PptxEnv) (f1 f2 : List Nat)
    (h : (∃ e, extract_content_from_pptx env f1 = Except.error e) ∨
      (∃ e, extract_content_from_pptx env f2 = Except.error e)) :
    (compare_presentations env f1 f2).identical = false ∧
    (compare_presentations env f1 f2).error = true ∧
    (compare_presentations env f1 f2).summary ≠ "" ∧
    (compare_presentations env f1 f2).error_details ≠ "" := by
  have herr : ∀ msg : String,
      (errorResult msg).identical = false ∧ (errorResult msg).error = true ∧
      (errorResult msg).summary ≠ "" ∧ (errorResult msg).error_details ≠ "" := by
    intro msg
    refine ⟨rfl, rfl, ?_, ?_⟩
    · exact append_ne_empty_of_left_ne _ _ (by decide)
    · exact append_ne_empty_of_left_ne _ _ (by decide)
  cases he1 : extract_content_from_pptx env f1 with
  | error e =>
    have : compare_presentations env f1 f2 = errorResult e := by
      unfold compare_presentations
      rw [he1]
    rw [this]
    exact herr e
  | ok s1 =>
    cases he2 : extract_content_from_pptx env f2 with
    | error e =>
      have : compare_presentations env f1 f2 = errorResult e := by
        unfold compare_presentations
        rw [he1, he2]
      rw [this]
      exact herr e
    | ok s2 =>
      rcases h with ⟨e, he⟩ | ⟨e, he⟩
      · rw [he1] at he
        cases he
      · rw [he2] at he
        cases he

/-- Witness for C7: with the parser that raises on any bytes, comparing
two byte payloads yields the structured error result. -/
theorem compare_error_boundary_witness :
    ((∃ e, extract_content_from_pptx env0 [0] = Except.error e) ∨
      (∃ e, extract_content_from_pptx env0 [1] = Except.error e)) ∧
    ((compare_presentations env0 [0] [1]).identical = false ∧
      (compare_presentations env0 [0] [1]).error = true ∧
      (compare_presentations env0 [0] [1]).summary ≠ "" ∧
      (compare_presentations env0 [0] [1]).error_details ≠ "") :=
  ⟨Or.inl ⟨"Package not found", rfl⟩,
    compare_error_boundary env0 [0] [1] (Or.inl ⟨"Package not found", rfl⟩)⟩

/-- C8: the image fingerprinter always returns a record whose hash is the
digest of the exact bytes and whose size is the byte length; decode
failure degrades width, height and format to 0, 0, "Unknown" while the
record is still returned; preview failure only nulls the preview; decode
success is recorded as decoded. -/
theorem process_image_blob_spec (env : PptxEnv) (blob : List Nat) (info : String) :
    ∃ r : ImageRec,
      process_image_blob env blob info = some r ∧
      r.hash = env.md5hex blob ∧
      r.size = blob.length ∧
      (env.decodeImage blob = none →
        r.width = 0 ∧ r.height = 0 ∧ r.format = "Unknown") ∧
      (∀ w h fmt, env.decodeImage blob = some (w, h, fmt) →
        r.width = w ∧ r.height = h ∧ r.format = fmt) ∧
      (env.encodePreview blob = none → r.thumbnail = none) ∧
      r.debug_info = info := by
  cases hdec : env.decodeImage blob with
  | none =>
    refine ⟨ImageRec.mk (env.md5hex blob) blob.length 0 0 "Unknown"
      (env.encodePreview blob) info, ?_, rfl, rfl,
      fun _ => ⟨rfl, rfl, rfl⟩, ?_, fun hp => hp, rfl⟩
    · simp [process_image_blob, hdec]
    · intro w h fmt hw
      simp at hw
  | some t =>
    obtain ⟨w0, rest⟩ := t
    obtain ⟨h0, fmt0⟩ := rest
    refine ⟨ImageRec.mk (env.md5hex blob) blob.length w0 h0 fmt0
      (env.encodePreview blob) info, ?_, rfl, rfl, ?_, ?_, fun hp => hp, rfl⟩
    · simp [process_image_blob, hdec]
    · intro hn
      simp at hn
    · intro w h fmt hw
      have hw2 : w0 = w ∧ h0 = h ∧ fmt0 = fmt := by
        simpa [Prod.ext_iff] using hw
      obtain ⟨rfl, rfl, rfl⟩ := hw2
      exact ⟨rfl, rfl, rfl⟩

/-- Witness for C8: the fingerprinter evaluated at a concrete environment
and blob. -/
theorem process_image_blob_spec_witness :
    ∃ r : ImageRec,
      process_image_blob env0 [1, 2, 3] "Slide 1" = some r ∧
      r.hash = env0.md5hex [1, 2, 3] ∧
      r.size = ([1, 2, 3] : List Nat).length ∧
      (env0.decodeImage [1, 2, 3] = none →
        r.width = 0 ∧ r.height = 0 ∧ r.format = "Unknown") ∧
      (∀ w h fmt, env0.decodeImage [1, 2, 3] = some (w, h, fmt) →
        r.width = w ∧ r.height = h ∧ r.format = fmt) ∧
      (env0.encodePreview [1, 2, 3] = none → r.thumbnail = none) ∧
      r.debug_info = "Slide 1" :=
  process_image_blob_spec env0 [1, 2, 3] "Slide 1"

lemma walk_picShape_length (env : PptxEnv) (blob : List Nat) (info : String) :
    (extract_images_from_shape env (picShape blob) info).length = 1 := by
  simp [picShape, extract_images_from_shape, process_image_blob]

lemma walk_nestGroups_length (env : PptxEnv) (blob : List Nat) :
    ∀ (d : Nat) (info : String),
      (extract_images_from_shape env (nestGroups d (picShape blob)) info).length = 1 := by
  intro d
  induction d with
  | zero =>
    intro info
    exact walk_picShape_length env blob info
  | succ d ih =>
    intro info
    rw [nestGroups]
    rw [extract_images_from_shape]
    simp only [List.attach_cons, List.attach_nil, List.map_cons, List.map_nil]
    simp [ih]

lemma cappedWalk_nestGroups_truncates (env : PptxEnv) (blob : List Nat) :
    ∀ (cap d : Nat), cap ≤ d →
      ∀ info, cappedWalk env cap (nestGroups d (picShape blob)) info = [] := by
  intro cap
  induction cap with
  | zero =>
    intro d _ info
    rfl
  | succ cap ih =>
    intro d hle info
    obtain ⟨d, rfl⟩ : ∃ e, d = e + 1 := ⟨d - 1, by omega⟩
    rw [nestGroups, cappedWalk]
    simp only [List.attach_cons, List.attach_nil, List.map_cons, List.map_nil]
    simp [ih d (by omega)]

/-- C9 (amended): the shape walk recurses into every group child with no
recursion-depth cap at all: a picture nested below any finite number of
group levels is still extracted, and the walk is a total function on
every finite shape tree by structural recursion. -/
theorem walk_unbounded_depth (env : PptxEnv) (blob : List Nat) (d : Nat)
    (info : String) :
    (extract_images_from_shape env (nestGroups d (picShape blob)) info).length = 1 :=
  walk_nestGroups_length env blob d info

/-- Counterexample for C9 as stated: the code walk extracts the picture
nested below 100 group levels, while the spec-modelled capped walk with
cap 64 silently truncates it; the walk therefore imposes no depth-64
truncation. -/
theorem walk_has_no_depth_cap :
    (extract_images_from_shape env0 (nestGroups 100 (picShape [7])) "").length = 1 ∧
    cappedWalk env0 64 (nestGroups 100 (picShape [7])) "" = [] ∧
    extract_images_from_shape env0 (nestGroups 100 (picShape [7])) "" ≠
      cappedWalk env0 64 (nestGroups 100 (picShape [7])) "" := by
  refine ⟨walk_nestGroups_length env0 [7] 100 "", cappedWalk_nestGroups_truncates env0 [7] 64 100 (by omega) "", ?_⟩
  intro h
  have h1 := walk_nestGroups_length env0 [7] 100 ""
  rw [h, cappedWalk_nestGroups_truncates env0 [7] 64 100 (by omega) ""] at h1
  cases h1

lemma filterMap_strip_eq (l : List String) :
    (l.filterMap fun c => if pyStrip c = "" then none else some (pyStrip c)) =
      (l.map pyStrip).filter fun t => t != "" := by
  induction l with
  | nil => rfl
  | cons c l ih =>
    by_cases hc : pyStrip c = ""
    · simp [List.filterMap_cons, hc, ih]
    · simp [List.filterMap_cons, hc, ih]

lemma textLines_strip_filter (shapes : List Shape) :
    shapes.flatMap shapeTextLines =
      ((slideRawTexts shapes).map pyStrip).filter fun t => t != "" := by
  induction shapes with
  | nil => rfl
  | cons s rest ih =>
    obtain ⟨ty, t, tbl, ib, fb, cs⟩ := s
    have hcons : slideRawTexts (Shape.node ty t tbl ib fb cs :: rest) =
        ((match t with | some txt => [txt] | none => []) ++
          (match tbl with | some rows => rows.flatten | none => [])) ++
          slideRawTexts rest := rfl
    rw [List.flatMap_cons, hcons, List.map_append, List.filter_append, ← ih]
    congr 1
    simp only [shapeTextLines, List.map_append, List.filter_append]
    congr 1
    · cases t with
      | none => rfl
      | some txt =>
        by_cases h : pyStrip txt = "" <;> simp [h]
    · cases tbl with
      | none => rfl
      | some rows => exact filterMap_strip_eq rows.flatten

/-- C10: slide text extraction appends a shape text or table cell only
when it is non-blank after stripping, and the appended value is the
stripped text; consequently two slides whose raw texts differ only by
leading or trailing whitespace or by whitespace-only shapes and cells
extract equal text_content strings, and the per-slide diff reports no
text difference for that pair. -/
theorem whitespace_only_text_ignored :
    (∀ shapes : List Shape,
      shapes.flatMap shapeTextLines =
        ((slideRawTexts shapes).map pyStrip).filter fun t => t != "") ∧
    (∀ (env : PptxEnv) (n1 n2 : Nat) (sh1 sh2 : List Shape),
      ((slideRawTexts sh1).map pyStrip).filter (fun t => t != "") =
        ((slideRawTexts sh2).map pyStrip).filter (fun t => t != "") →
      (extract_slide env n1 sh1).text_content =
        (extract_slide env n2 sh2).text_content ∧
      (slideDiffOf (extract_slide env n1 sh1)
        (extract_slide env n2 sh2)).has_text_diff = false) := by
  refine ⟨textLines_strip_filter, ?_⟩
  intro env n1 n2 sh1 sh2 h
  have htext : (extract_slide env n1 sh1).text_content =
      (extract_slide env n2 sh2).text_content := by
    simp only [extract_slide]
    rw [textLines_strip_filter, textLines_strip_filter, h]
  refine ⟨htext, ?_⟩
  simp [slideDiffOf, htext]

/-- Witness for C10: a slide whose only shape text is "  Hello " against
a slide with shape text "Hello" plus a whitespace-only shape; the raw
texts agree after stripping and blank filtering, so the extracted texts
are equal and no text diff is reported. -/
theorem whitespace_only_text_ignored_witness :
    ((slideRawTexts [Shape.node none (some "  Hello ") none none none []]).map
        pyStrip).filter (fun t => t != "") =
      ((slideRawTexts [Shape.node none (some "Hello") none none none [],
        Shape.node none (some "   ") none none none []]).map
        pyStrip).filter (fun t => t != "") ∧
    ((extract_slide env0 1
        [Shape.node none (some "  Hello ") none none none []]).text_content =
      (extract_slide env0 2
        [Shape.node none (some "Hello") none none none [],
         Shape.node none (some "   ") none none none []]).text_content ∧
    (slideDiffOf
      (extract_slide env0 1
        [Shape.node none (some "  Hello ") none none none []])
      (extract_slide env0 2
        [Shape.node none (some "Hello") none none none [],
         Shape.node none (some "   ") none none none []])).has_text_diff = false) :=
  ⟨by decide,
    whitespace_only_text_ignored.2 env0 1 2
      [Shape.node none (some "  Hello ") none none none []]
      [Shape.node none (some "Hello") none none none [],
       Shape.node none (some "   ") none none none []]
      (by decide)⟩

end RazanCompare
